import Mathlib

/-!
Verification development for the VDP backend's AI-guidelines subsystem.

The definitions below are a shallow embedding of the Python sources:
  * `backend/app/schemas/ai_guidelines.py`   (Pydantic schemas and validators)
  * `backend/app/services/ai_guidelines_service.py` (versioned guidelines store)
  * `backend/app/services/openrouter_service.py`    (LLM client, cache)
  * `backend/app/services/rate_limiter.py`          (sliding-window rate limiter)
  * `backend/app/services/calibration_service.py`   (calibration reads)
  * `backend/app/core/calibration_questions.py`     (question catalog)

Database rows are modelled as lists of records, a `Session` as an explicit
state value threaded through the operations, and Python dictionaries as
association lists with Python's insert/update ordering.  JSON documents are
modelled by the inductive `JValue` (numbers as `Int`: every number the
modelled code paths manipulate is integral).  `created_at` / `updated_at`
timestamps are omitted from the row model; none of the modelled operations
reads them.
-/

namespace VDP

/-- JSON value, as produced by `json.loads`.  Arrays and objects are stored
in cons form (`arrNil`/`arrCons`, `objNil`/`objCons`) so the type is a plain
inductive; object fields keep their textual order. -/
inductive JValue where
  | null : JValue
  | bool (b : Bool) : JValue
  | num (n : Int) : JValue
  | str (s : String) : JValue
  | arrNil : JValue
  | arrCons (hd tl : JValue) : JValue
  | objNil : JValue
  | objCons (key : String) (val tl : JValue) : JValue
deriving DecidableEq, Repr

/-- Builds a JSON array from a list of values. -/
def JValue.ofElems : List JValue → JValue
  | [] => .arrNil
  | x :: xs => .arrCons x (JValue.ofElems xs)

/-- Builds a JSON object from an ordered field list. -/
def JValue.ofFields : List (String × JValue) → JValue
  | [] => .objNil
  | (k, v) :: rest => .objCons k v (JValue.ofFields rest)

/-- Reads a JSON value as an array, returning its element list. -/
def jElems : JValue → Option (List JValue)
  | .arrNil => some []
  | .arrCons x tl => (jElems tl).map (x :: ·)
  | _ => none

/-- Reads a JSON value as an object, returning its ordered field list. -/
def jFields : JValue → Option (List (String × JValue))
  | .objNil => some []
  | .objCons k v tl => (jFields tl).map ((k, v) :: ·)
  | _ => none

/-- Field lookup in a JSON object, as Python's `dict.get` on parsed JSON. -/
def jGetField (fields : List (String × JValue)) (k : String) : Option JValue :=
  (fields.find? (fun p => p.1 == k)).map (·.2)

/-- Embeds `ScoringGuide` from `schemas/ai_guidelines.py`: four required
string fields aliased "1-3", "4-5", "6-7", "8-10". -/
structure ScoringGuide where
  range_1_3 : String
  range_4_5 : String
  range_6_7 : String
  range_8_10 : String
deriving DecidableEq, Repr

/-- Embeds `GuidelineCategory` from `schemas/ai_guidelines.py`.  The Python
field `section` is a Lean keyword and is rendered here as `sectionKey`.
Per the Pydantic declaration, `weight` is an integer field. -/
structure GuidelineCategory where
  sectionKey : String
  name : String
  weight : Int
  criteria : List String
  red_flags : List String
  scoring_guide : ScoringGuide
deriving DecidableEq, Repr

/-- Embeds `GeneratedGuidelines` from `schemas/ai_guidelines.py`. -/
structure GeneratedGuidelines where
  categories : List GuidelineCategory
deriving DecidableEq, Repr

/-- Field-level constraints Pydantic enforces on one `GuidelineCategory`:
`weight` has `ge=1, le=10`; `criteria` and `red_flags` have `min_items=1`.
The string fields are required, which the Lean record type already ensures. -/
def validCategory (c : GuidelineCategory) : Bool :=
  decide (1 ≤ c.weight) && decide (c.weight ≤ 10) &&
  decide (1 ≤ c.criteria.length) && decide (1 ≤ c.red_flags.length)

/-- Acceptance test of the `GeneratedGuidelines` schema: the `categories`
field has `min_items=1`, each category passes its field constraints, and the
`validate_categories` validator rejects an empty list and duplicate
`section` values (`len(sections) != len(set(sections))`). -/
def validateGeneratedGuidelines (cats : List GuidelineCategory) : Bool :=
  decide (1 ≤ cats.length) &&
  cats.all validCategory &&
  decide ((cats.map (·.sectionKey)).Nodup)

/-- Sum of the category weights of a guideline set. -/
def sumWeights (cats : List GuidelineCategory) : Int :=
  (cats.map (·.weight)).sum

/-- Sample scoring guide used by concrete inputs below. -/
def sgSample : ScoringGuide :=
  { range_1_3 := "weak", range_4_5 := "below average"
    range_6_7 := "above average", range_8_10 := "strong" }

/-- Concrete category with weight 5 accepted by the schema. -/
def catWeight5 : GuidelineCategory :=
  { sectionKey := "team_assessment", name := "Team Assessment", weight := 5
    criteria := ["founder experience"], red_flags := ["solo founder"]
    scoring_guide := sgSample }

/-! ### Database rows and session state

Rows of the `programs`, `ai_guidelines` and `calibration_answers` tables,
from `models/program.py`, `models/ai_guideline.py` and
`models/calibration_answer.py`. -/

/-- Row of the `programs` table (the columns the guidelines and calibration
services read: primary key and owning organization). -/
structure ProgramRow where
  id : Nat
  organization_id : Nat
deriving DecidableEq, Repr

/-- The `criteria` JSON column content written by `save_guidelines`:
name, criteria, red flags and the four-band scoring guide. -/
structure CriteriaJson where
  name : String
  criteria : List String
  red_flags : List String
  scoring_guide : ScoringGuide
deriving DecidableEq, Repr

/-- Row of the `ai_guidelines` table (`models/ai_guideline.py`).  The Python
column `section` appears here as `sectionKey`. -/
structure AIGuidelineRow where
  id : Nat
  program_id : Nat
  sectionKey : String
  weight : Int
  criteria : CriteriaJson
  prompt_template : String
  is_active : Bool
  version : Nat
deriving DecidableEq, Repr

/-- Row of the `calibration_answers` table (`models/calibration_answer.py`). -/
structure CalibrationAnswerRow where
  id : Nat
  program_id : Nat
  question_key : String
  answer_value : JValue
  answer_text : String
deriving DecidableEq, Repr

/-- Relational state the services read and write: the three tables plus the
autoincrement counter handing out `ai_guidelines` primary keys. -/
structure DBState where
  programs : List ProgramRow
  guidelines : List AIGuidelineRow
  calibration : List CalibrationAnswerRow
  nextId : Nat
deriving DecidableEq, Repr

/-- Embeds the tenant check every service method starts with:
`db.query(Program).filter(Program.id == program_id,
Program.organization_id == organization_id).first()`. -/
def progLookup (db : DBState) (pid oid : Nat) : Option ProgramRow :=
  (db.programs.filter fun p => decide (p.id = pid ∧ p.organization_id = oid)).head?

/-! ### Guidelines store (`ai_guidelines_service.py`) -/

/-- Maximum existing version for a program, 0 when the program has no rows.
The source obtains it as `order_by(AIGuideline.version.desc()).first()` and
uses `latest_version.version + 1 if latest_version else 1`. -/
def maxVersion (db : DBState) (pid : Nat) : Nat :=
  ((db.guidelines.filter fun r => decide (r.program_id = pid)).map (·.version)).foldr max 0

/-- Embeds the bulk update
`query(AIGuideline).filter(program_id == pid, is_active == True)
.update(is_active = False)`: clears the active flag on every row of the
program. -/
def deactivateAll (rows : List AIGuidelineRow) (pid : Nat) : List AIGuidelineRow :=
  rows.map fun r =>
    { r with is_active := if r.program_id = pid ∧ r.is_active = true then false else r.is_active }

/-- Rows inserted by `save_guidelines` for one category list: one row per
category, ids handed out by the autoincrement counter, all rows carrying the
same version and active flag.  Mirrors the `criteria_json` assembly in the
source. -/
def mkRows (pid ver : Nat) (act : Bool) : Nat → List GuidelineCategory → List AIGuidelineRow
  | _, [] => []
  | startId, c :: cs =>
    { id := startId, program_id := pid, sectionKey := c.sectionKey, weight := c.weight
      criteria := { name := c.name, criteria := c.criteria, red_flags := c.red_flags
                    scoring_guide := c.scoring_guide }
      prompt_template := "", is_active := act, version := ver } ::
    mkRows pid ver act (startId + 1) cs

/-- The `SavedGuidelines` payload of a successful save or `get_active`
response (timestamps omitted). -/
structure SavedGuidelinesResp where
  id : Nat
  program_id : Nat
  categories : List GuidelineCategory
  version : Nat
  is_active : Bool
deriving DecidableEq, Repr

/-- Outcome of `save_guidelines` (the `GuidelinesSaveResponse` schema:
`success` plus either a payload or an error string). -/
inductive SaveResult where
  | ok (g : SavedGuidelinesResp) : SaveResult
  | err (msg : String) : SaveResult
deriving DecidableEq, Repr

/-- Embeds `AIGuidelinesService.save_guidelines`.  The tenant check fails
with the constant error; otherwise the next version is allocated as the
maximal existing version plus one, an activating save first clears the
active flag on the program's rows, and one row per category is inserted
under the new version.  The commit covers the clear and the inserts
together.  With an empty category list the commit still lands (clearing
included) and the subsequent `saved_guidelines[0]` access raises, so the
method reports failure after the empty insert. -/
def save_guidelines (db : DBState) (pid oid : Nat) (gg : GeneratedGuidelines)
    (act : Bool) : SaveResult × DBState :=
  match progLookup db pid oid with
  | none => (.err "Program not found or access denied", db)
  | some _ =>
    let nextVer := maxVersion db pid + 1
    let base := if act then deactivateAll db.guidelines pid else db.guidelines
    let newRows := mkRows pid nextVer act db.nextId gg.categories
    match newRows with
    | [] =>
      (.err "Failed to save guidelines: list index out of range",
       { db with guidelines := base })
    | first :: _ =>
      (.ok { id := first.id, program_id := pid, categories := gg.categories
             version := nextVer, is_active := act },
       { db with guidelines := base ++ newRows
                 nextId := db.nextId + gg.categories.length })

/-- Outcome of `activate_guidelines_version`
(the `GuidelinesActivationResponse` schema). -/
inductive ActivateResult where
  | ok (activated_version : Nat) : ActivateResult
  | err (msg : String) : ActivateResult
deriving DecidableEq, Repr

/-- Embeds `AIGuidelinesService.activate_guidelines_version`: tenant check,
then existence check on the requested version, then clear-all active flags
for the program and set the flag on the rows of the requested version, in
one commit. -/
def activate_guidelines_version (db : DBState) (pid oid v : Nat) :
    ActivateResult × DBState :=
  match progLookup db pid oid with
  | none => (.err "Program not found or access denied", db)
  | some _ =>
    if (db.guidelines.filter fun r => decide (r.program_id = pid ∧ r.version = v)).isEmpty then
      (.err ("Version " ++ toString v ++ " not found"), db)
    else
      let cleared := deactivateAll db.guidelines pid
      (.ok v,
       { db with guidelines :=
           cleared.map fun r =>
             { r with is_active :=
                 if r.program_id = pid ∧ r.version = v then true else r.is_active } })

/-- Insertion step of the `ORDER BY section` sort used by
`get_active_guidelines` (string comparison on the section column). -/
def insertBySection (r : AIGuidelineRow) : List AIGuidelineRow → List AIGuidelineRow
  | [] => [r]
  | x :: xs =>
    if decide (x.sectionKey < r.sectionKey) then x :: insertBySection r xs else r :: x :: xs

/-- Sorts rows by their section column ascending. -/
def sortBySection : List AIGuidelineRow → List AIGuidelineRow
  | [] => []
  | x :: xs => insertBySection x (sortBySection xs)

/-- Reconstructs a `GuidelineCategory` from a stored row, as the
`criteria_data.get(...)` conversions in the source (the stored `criteria`
JSON always carries the fields `save_guidelines` wrote). -/
def rowToCategory (r : AIGuidelineRow) : GuidelineCategory :=
  { sectionKey := r.sectionKey, name := r.criteria.name, weight := r.weight
    criteria := r.criteria.criteria, red_flags := r.criteria.red_flags
    scoring_guide := r.criteria.scoring_guide }

/-- Embeds `AIGuidelinesService.get_active_guidelines`: tenant check, then
the rows of the program with the active flag set, ordered by section; `none`
when the check fails or no row is active, otherwise the category set with
the version taken from the first active row. -/
def get_active_guidelines (db : DBState) (pid oid : Nat) : Option SavedGuidelinesResp :=
  match progLookup db pid oid with
  | none => none
  | some _ =>
    match sortBySection (db.guidelines.filter fun r =>
        decide (r.program_id = pid ∧ r.is_active = true)) with
    | [] => none
    | first :: rest =>
      some { id := first.id, program_id := pid
             categories := (first :: rest).map rowToCategory
             version := first.version, is_active := true }

/-- Insertion step of the `ORDER BY version DESC, section` sort used by
`get_guidelines_history`. -/
def insertHist (r : AIGuidelineRow) : List AIGuidelineRow → List AIGuidelineRow
  | [] => [r]
  | x :: xs =>
    if decide (r.version < x.version ∨ (r.version = x.version ∧ ¬ r.sectionKey < x.sectionKey))
    then x :: insertHist r xs
    else r :: x :: xs

/-- Sorts rows by version descending then section ascending. -/
def sortHist : List AIGuidelineRow → List AIGuidelineRow
  | [] => []
  | x :: xs => insertHist x (sortHist xs)

/-- First occurrences of a list's elements, in order: the key sequence of a
Python dict populated while iterating the list. -/
def distinctInOrder : List Nat → List Nat
  | [] => []
  | v :: vs => v :: (distinctInOrder vs).filter (fun w => decide (¬ w = v))

/-- Groups the sorted history rows by version, as the
`guidelines_by_version` dict in the source: one entry per version in first-
occurrence order, metadata from the version's first row, categories from all
its rows in iteration order. -/
def historyEntries (records : List AIGuidelineRow) : List SavedGuidelinesResp :=
  (distinctInOrder (records.map (·.version))).filterMap fun v =>
    match records.filter (fun r => decide (r.version = v)) with
    | [] => none
    | first :: rest =>
      some { id := first.id, program_id := first.program_id
             categories := (first :: rest).map rowToCategory
             version := v, is_active := first.is_active }

/-- The `GuidelinesListResponse` schema. -/
structure HistoryResp where
  success : Bool
  guidelines : List SavedGuidelinesResp
  active_version : Option Nat
  error : Option String
deriving DecidableEq, Repr

/-- Embeds `AIGuidelinesService.get_guidelines_history`: tenant check, rows
ordered newest version first, grouped per version, with `active_version`
taken from the first active row encountered. -/
def get_guidelines_history (db : DBState) (pid oid : Nat) : HistoryResp :=
  match progLookup db pid oid with
  | none =>
    { success := false, guidelines := [], active_version := none
      error := some "Program not found or access denied" }
  | some _ =>
    let records := sortHist (db.guidelines.filter fun r => decide (r.program_id = pid))
    { success := true
      guidelines := historyEntries records
      active_version := (records.find? (·.is_active)).map (·.version)
      error := none }

/-! ### Rate limiter (`rate_limiter.py`, in-memory path)

The in-memory fallback keeps, per key, the list of timestamps of requests
granted inside the trailing window.  Timestamps are `Int` as in the source
(`int(time.time())`). -/

/-- The per-key timestamp store `self._memory_store`. -/
def MemStore := List (String × List Int)

/-- Reads a key's timestamp list (`[]` when the key is absent, as the source
initialises missing keys with an empty list). -/
def memGet (s : MemStore) (k : String) : List Int :=
  match (List.find? (fun p => p.1 == k) s) with
  | some p => p.2
  | none => []

/-- Writes a key's timestamp list, replacing any previous binding. -/
def memSet (s : MemStore) (k : String) (v : List Int) : MemStore :=
  (k, v) :: List.filter (fun p : String × List Int => !(p.1 == k)) s

/-- The dictionary `check_rate_limit` returns: allowed flag, remaining
quota, reset time and current count. -/
structure RateResult where
  allowed : Bool
  remaining : Int
  reset_time : Int
  current_count : Nat
deriving DecidableEq, Repr

/-- Embeds `RateLimiter._memory_rate_limit` (together with the
`window_start = current_time - window_seconds` computation of
`check_rate_limit`): purge timestamps at or before the window start, count
the survivors; below the limit the call is allowed, the current time
recorded and `remaining = max(0, limit - count - 1)` returned; otherwise the
call is denied with `remaining = 0`, nothing recorded and the reset time
derived from the oldest surviving entry. -/
def memory_rate_limit (s : MemStore) (key : String) (limit : Nat)
    (window now : Int) : RateResult × MemStore :=
  let windowStart := now - window
  let kept := (memGet s key).filter (fun t => decide (windowStart < t))
  if kept.length < limit then
    ({ allowed := true, remaining := max 0 ((limit : Int) - kept.length - 1)
       reset_time := now + window, current_count := kept.length + 1 },
     memSet s key (kept ++ [now]))
  else
    ({ allowed := false, remaining := 0
       reset_time := match kept.min? with
                     | some oldest => oldest + window
                     | none => now + window
       current_count := kept.length },
     memSet s key kept)

/-! ### Calibration reads (`calibration_service.py`, question catalog) -/

/-- The keys of `CALIBRATION_QUESTIONS` in `core/calibration_questions.py`,
in source order. -/
def calibrationQuestionKeys : List String :=
  ["startup_stage_preference", "technical_vs_business_innovation",
   "team_assessment_priority", "risk_tolerance_moonshots",
   "industry_focus_preference", "revenue_requirements",
   "market_opportunity_size", "competition_differentiation_importance",
   "validation_achievement_standards", "problem_solution_fit_priority",
   "customer_business_model_focus"]

/-- The `CALIBRATION_CATEGORIES` dict: category key paired with its question
keys, in source order. -/
def calibrationCategories : List (String × List String) :=
  [("general_preferences",
    ["startup_stage_preference", "risk_tolerance_moonshots", "industry_focus_preference"]),
   ("problem_solution_evaluation",
    ["problem_solution_fit_priority", "technical_vs_business_innovation"]),
   ("team_assessment", ["team_assessment_priority"]),
   ("market_and_business",
    ["market_opportunity_size", "customer_business_model_focus", "revenue_requirements"]),
   ("competition_and_validation",
    ["competition_differentiation_importance", "validation_achievement_standards"])]

/-- First occurrences of a string list's elements, in order: models
membership in the Python set built from the list. -/
def distinctStr : List String → List String
  | [] => []
  | v :: vs => v :: (distinctStr vs).filter (fun w => decide (¬ w = v))

/-- Embeds `CalibrationService.get_program_calibration_answers`: the
program's stored answers restricted to question keys that belong to the
current catalog. -/
def get_program_calibration_answers (db : DBState) (pid : Nat) :
    List CalibrationAnswerRow :=
  (db.calibration.filter fun a => decide (a.program_id = pid)).filter
    fun a => decide (a.question_key ∈ calibrationQuestionKeys)

/-- The `CalibrationCompletionStatus` schema (percentage as an exact
rational in place of the Python float). -/
structure CompletionStatus where
  is_complete : Bool
  total_questions : Nat
  answered_questions : Nat
  completion_percentage : ℚ
  missing_questions : List String
  next_category : Option String
deriving DecidableEq, Repr

/-- Embeds `CalibrationService.get_completion_status`: the program's stored
answer keys intersected with the catalog form the answered set; counts,
percentage, missing keys and the first category whose questions are not all
answered are derived from it. -/
def get_completion_status (db : DBState) (pid : Nat) : CompletionStatus :=
  let storedKeys := (db.calibration.filter fun a => decide (a.program_id = pid)).map
    (·.question_key)
  let answeredKeys := distinctStr (storedKeys.filter
    fun k => decide (k ∈ calibrationQuestionKeys))
  let missing := calibrationQuestionKeys.filter fun k => decide (¬ k ∈ answeredKeys)
  let answeredCount := answeredKeys.length
  let totalCount := calibrationQuestionKeys.length
  { is_complete := decide (missing = [])
    total_questions := totalCount
    answered_questions := answeredCount
    completion_percentage := ((answeredCount : ℚ) / (totalCount : ℚ)) * 100
    missing_questions := missing
    next_category :=
      if missing = [] then none
      else (calibrationCategories.find? fun c =>
        !(c.2.all fun q => decide (q ∈ answeredKeys))).map (·.1) }

/-! ### LLM client and guidelines cache (`openrouter_service.py`)

The HTTP exchange and `json.loads` run outside the embedding: one
`LLMOutcome` value records what they produced for a request (transport
failure, or the parse outcome of the returned content, together with the
outcome of the brace-substring fallback reparse).  The cache key in the
source is the SHA-256 of `json.dumps` over the calibration answers and the
model with `sort_keys=True`; the embedding keeps the canonical data itself
as the key, the hash being injective on it at the modelling level. -/

/-- Reads a JSON value as a string. -/
def jStr : JValue → Option String
  | .str s => some s
  | _ => none

/-- Reads a JSON value as an integer. -/
def jInt : JValue → Option Int
  | .num n => some n
  | _ => none

/-- Reads a JSON value as a list of strings. -/
def jStrList (j : JValue) : Option (List String) :=
  (jElems j).bind fun xs => xs.mapM jStr

/-- Parses the `scoring_guide` object by its Pydantic aliases
"1-3", "4-5", "6-7", "8-10". -/
def jScoringGuide (j : JValue) : Option ScoringGuide :=
  (jFields j).bind fun fields => do
    let a ← (jGetField fields "1-3").bind jStr
    let b ← (jGetField fields "4-5").bind jStr
    let c ← (jGetField fields "6-7").bind jStr
    let d ← (jGetField fields "8-10").bind jStr
    pure { range_1_3 := a, range_4_5 := b, range_6_7 := c, range_8_10 := d }

/-- Parses one category object into the `GuidelineCategory` schema fields
(field-level constraints are applied afterwards by
`validateGeneratedGuidelines`). -/
def jCategory (j : JValue) : Option GuidelineCategory :=
  (jFields j).bind fun fields => do
    let sec ← (jGetField fields "section").bind jStr
    let name ← (jGetField fields "name").bind jStr
    let w ← (jGetField fields "weight").bind jInt
    let crit ← (jGetField fields "criteria").bind jStrList
    let red ← (jGetField fields "red_flags").bind jStrList
    let sg ← (jGetField fields "scoring_guide").bind jScoringGuide
    pure { sectionKey := sec, name := name, weight := w, criteria := crit
           red_flags := red, scoring_guide := sg }

/-- Embeds the `GeneratedGuidelines(**generated_data)` construction in the
service: the parsed dict must carry a `categories` list whose members parse
as categories and pass the schema's validators; any violation raises a
Pydantic `ValidationError`, summarised here by one error string. -/
def jToGuidelines (j : JValue) : Except String GeneratedGuidelines :=
  match (jFields j).bind (fun fields =>
      ((jGetField fields "categories").bind jElems).bind (fun elems =>
        (elems.mapM jCategory).bind (fun cats =>
          if validateGeneratedGuidelines cats then some (⟨cats⟩ : GeneratedGuidelines)
          else none))) with
  | some gg => .ok gg
  | none => .error "validation error for GeneratedGuidelines"

/-- Follows the specification's wording for the structural check the client
is claimed to perform: the top-level parsed shape contains a `categories`
list. -/
def hasCategoriesList (j : JValue) : Bool :=
  match jFields j with
  | none => false
  | some fields =>
    match jGetField fields "categories" with
    | some v => (jElems v).isSome
    | none => false

/-- Insertion step of the `sort_keys=True` ordering over the calibration
answer dict. -/
def insertByKey (p : String × JValue) : List (String × JValue) → List (String × JValue)
  | [] => [p]
  | q :: qs => if decide (q.1 < p.1) then q :: insertByKey p qs else p :: q :: qs

/-- Sorts the calibration answer dict by question key ascending. -/
def sortAnswers : List (String × JValue) → List (String × JValue)
  | [] => []
  | p :: ps => insertByKey p (sortAnswers ps)

/-- Cache key of `OpenRouterService._get_cache_key`: the canonical
(sorted-key) calibration answers together with the model. -/
structure CacheKey where
  answers : List (String × JValue)
  model : String
deriving DecidableEq, Repr

/-- Builds the cache key for an answer dict and a model. -/
def cacheKey (answers : List (String × JValue)) (model : String) : CacheKey :=
  { answers := sortAnswers answers, model := model }

/-- A cached generation result with its absolute expiry, as a Redis `SETEX`
entry. -/
structure CacheEntry where
  key : CacheKey
  value : JValue
  expiry : Int
deriving DecidableEq, Repr

/-- Embeds `_get_cached_guidelines` over the Redis `GET`: the stored value
for the key while its TTL has not elapsed. -/
def cacheGet (cache : List CacheEntry) (k : CacheKey) (now : Int) : Option JValue :=
  (cache.find? fun e => decide (e.key = k) && decide (now < e.expiry)).map (·.value)

/-- Embeds `_cache_guidelines` over the Redis `SETEX`: stores the value
under the key, replacing any previous entry. -/
def cacheSet (cache : List CacheEntry) (k : CacheKey) (v : JValue) (expiry : Int) :
    List CacheEntry :=
  { key := k, value := v, expiry := expiry } :: cache.filter fun e => decide (¬ e.key = k)

/-- Outcome of the brace-substring fallback used when direct `json.loads`
fails: the regex finds no brace-delimited substring, or it finds one whose
reparse raises `json.JSONDecodeError` (carrying that error's message), or
it finds one that reparses successfully. -/
inductive FallbackOutcome where
  | noBraceMatch : FallbackOutcome
  | parseFailed (msg : String) : FallbackOutcome
  | parsed (j : JValue) : FallbackOutcome
deriving DecidableEq, Repr

/-- External behaviour of one OpenRouter HTTP exchange: a transport or
status failure, or returned content with its direct `json.loads` outcome
and the brace-substring fallback outcome. -/
inductive LLMOutcome where
  | httpError (detail : String) : LLMOutcome
  | content (direct : Option JValue) (fallbackExtract : FallbackOutcome) : LLMOutcome
deriving DecidableEq, Repr

/-- Result of the client call (a parsed JSON document, or the message of
the `ValueError` the source raises). -/
inductive ClientResult where
  | ok (j : JValue) : ClientResult
  | err (msg : String) : ClientResult
deriving DecidableEq, Repr

/-- Client call outcome together with the cache it leaves behind and the
number of HTTP requests it issued. -/
structure ClientOutput where
  result : ClientResult
  cache : List CacheEntry
  llmCalls : Nat
deriving DecidableEq, Repr

/-- Embeds `OpenRouterService.generate_ai_guidelines`: cache lookup first
(a hit returns the cached document without any HTTP request); on a miss the
request is made (`_check_rate_limit` always answers `True` in the source)
and an HTTP failure raises `OpenRouter API error`.  Parsed content is
returned as-is — with the brace-substring reparse as fallback — and cached
for 86400 seconds.  When direct parsing fails, the handler either finds no
brace substring and raises `ValueError("AI response was not valid JSON")`,
caught by the generic arm as `Unexpected error: ...`, or finds one whose
reparse raises `json.JSONDecodeError`, caught by the dedicated arm as
`Invalid JSON response from AI: ...`. -/
def generate_ai_guidelines (cache : List CacheEntry) (now : Int)
    (answers : List (String × JValue)) (model : String) (llm : LLMOutcome) :
    ClientOutput :=
  let key := cacheKey answers model
  match cacheGet cache key now with
  | some j => { result := .ok j, cache := cache, llmCalls := 0 }
  | none =>
    match llm with
    | .httpError d =>
      { result := .err ("OpenRouter API error: " ++ d), cache := cache, llmCalls := 1 }
    | .content direct fallbackExtract =>
      match direct with
      | some j =>
        { result := .ok j, cache := cacheSet cache key j (now + 86400), llmCalls := 1 }
      | none =>
        match fallbackExtract with
        | .parsed j =>
          { result := .ok j, cache := cacheSet cache key j (now + 86400), llmCalls := 1 }
        | .parseFailed msg =>
          { result := .err ("Invalid JSON response from AI: " ++ msg)
            cache := cache, llmCalls := 1 }
        | .noBraceMatch =>
          { result := .err "Unexpected error: AI response was not valid JSON"
            cache := cache, llmCalls := 1 }

/-- Modelled from the spec: the module-level client instance
`openrouter_service` and its method `generate_guidelines(calibration_data,
model)`, which `ai_guidelines_service.py` imports and calls (and whose
siblings `get_cache_stats` and `clear_cache` the service and endpoints also
call) but which are absent from this snapshot of `openrouter_service.py` —
only the class `OpenRouterService` with the method `generate_ai_guidelines`
exists.  Per the specification the call performs the cached LLM generation
for the given calibration answers and model (cache key over the sorted
answers and the model, 24-hour TTL, hit served without an HTTP request),
which is the contract the embedded `generate_ai_guidelines` implements, so
the wrapper delegates to it. -/
def openrouter_generate_guidelines (cache : List CacheEntry) (now : Int)
    (calibration_data : List (String × JValue)) (model : String)
    (llm : LLMOutcome) : ClientOutput :=
  generate_ai_guidelines cache now calibration_data model llm

/-- Python dict insert-or-update: an existing key keeps its position, a new
key is appended. -/
def upsertAssoc (d : List (String × JValue)) (k : String) (v : JValue) :
    List (String × JValue) :=
  match d with
  | [] => [(k, v)]
  | (k', v') :: rest =>
    if k' = k then (k, v) :: rest else (k', v') :: upsertAssoc rest k v

/-- The `GuidelinesGenerationResponse` schema. -/
structure GenerationResp where
  success : Bool
  guidelines : Option GeneratedGuidelines
  model_used : Option String
  cached : Bool
  error : Option String
deriving DecidableEq, Repr

/-- Service-level generation outcome with the cache it leaves behind and
the number of HTTP requests issued. -/
structure GenOutput where
  resp : GenerationResp
  cache : List CacheEntry
  llmCalls : Nat
deriving DecidableEq, Repr

/-- Embeds `AIGuidelinesService.generate_guidelines_from_calibration`:
tenant check, empty-calibration check, answer dict built key by key, the
client call, Pydantic validation of the returned document, and the response
assembly — whose `cached` field the source sets to the literal `False`
(`TODO: Implement cache tracking`) and whose `model_used` falls back to the
literal `"claude-3.5-sonnet"`.  Exceptions from the client or the validation
surface as `Guidelines generation failed` error strings.  The client call
goes through `openrouter_generate_guidelines`, the wrapper modelled from
the spec because the source's call target (`openrouter_service
.generate_guidelines`) is absent from this snapshot; the client's own
default model (`"anthropic/claude-3.5-sonnet"`) fills in when the caller
passes none. -/
def generate_guidelines_from_calibration (db : DBState) (cache : List CacheEntry)
    (now : Int) (pid oid : Nat) (model : Option String) (llm : LLMOutcome) : GenOutput :=
  match progLookup db pid oid with
  | none =>
    { resp := { success := false, guidelines := none, model_used := none
                cached := false, error := some "Program not found or access denied" }
      cache := cache, llmCalls := 0 }
  | some _ =>
    if (db.calibration.filter fun a => decide (a.program_id = pid)).isEmpty then
      { resp := { success := false, guidelines := none, model_used := none
                  cached := false
                  error := some "No calibration data found. Please complete calibration first." }
        cache := cache, llmCalls := 0 }
    else
      match openrouter_generate_guidelines cache now
          ((db.calibration.filter fun a => decide (a.program_id = pid)).foldl
            (fun d a => upsertAssoc d a.question_key a.answer_value) [])
          (model.getD "anthropic/claude-3.5-sonnet") llm with
      | { result := .err e, cache := cache₂, llmCalls := calls } =>
        { resp := { success := false, guidelines := none, model_used := none
                    cached := false, error := some ("Guidelines generation failed: " ++ e) }
          cache := cache₂, llmCalls := calls }
      | { result := .ok j, cache := cache₂, llmCalls := calls } =>
        match jToGuidelines j with
        | .error e =>
          { resp := { success := false, guidelines := none, model_used := none
                      cached := false, error := some ("Guidelines generation failed: " ++ e) }
            cache := cache₂, llmCalls := calls }
        | .ok gg =>
          { resp := { success := true, guidelines := some gg
                      model_used := some (model.getD "claude-3.5-sonnet")
                      cached := false, error := none }
            cache := cache₂, llmCalls := calls }

/-! ### Operation sequences over the guidelines store -/

/-- One store operation of the versioning workflow. -/
inductive GLOp where
  | save (pid oid : Nat) (gg : GeneratedGuidelines) (act : Bool) : GLOp
  | activate (pid oid v : Nat) : GLOp

/-- Applies one operation, keeping the state it leaves behind. -/
def applyOp (db : DBState) : GLOp → DBState
  | .save pid oid gg act => (save_guidelines db pid oid gg act).2
  | .activate pid oid v => (activate_guidelines_version db pid oid v).2

/-- Runs a sequence of save and activate operations. -/
def runOps (db : DBState) (ops : List GLOp) : DBState :=
  ops.foldl applyOp db

/-- Single-active-version property of a row list: any two simultaneously
active rows of one program carry the same version number. -/
def rowsOneVersion (rows : List AIGuidelineRow) : Prop :=
  ∀ r₁ ∈ rows, ∀ r₂ ∈ rows,
    r₁.program_id = r₂.program_id → r₁.is_active = true → r₂.is_active = true →
      r₁.version = r₂.version

instance (rows : List AIGuidelineRow) : Decidable (rowsOneVersion rows) := by
  unfold rowsOneVersion; infer_instance

/-- Per-program single-active-version invariant of the store. -/
def activeOneVersion (db : DBState) : Prop :=
  rowsOneVersion db.guidelines

instance (db : DBState) : Decidable (activeOneVersion db) := by
  unfold activeOneVersion; infer_instance

/-- Version numbers handed out by a sequence of saves for one program, in
order, successful saves only. -/
def saveVersions (db : DBState) (pid oid : Nat) :
    List (GeneratedGuidelines × Bool) → List Nat
  | [] => []
  | (gg, act) :: rest =>
    match save_guidelines db pid oid gg act with
    | (.ok sg, db') => sg.version :: saveVersions db' pid oid rest
    | (.err _, db') => saveVersions db' pid oid rest

/-- Runs a sequence of draft saves (`activate=false`), each with its own
program, organization and category set. -/
def runDraftSaves (db : DBState) : List (Nat × Nat × GeneratedGuidelines) → DBState
  | [] => db
  | (pid, oid, gg) :: rest => runDraftSaves (save_guidelines db pid oid gg false).2 rest

/-! ### Concrete sample data -/

/-- Second sample category. -/
def catMarket : GuidelineCategory :=
  { sectionKey := "market_opportunity", name := "Market Opportunity", weight := 3
    criteria := ["market size"], red_flags := ["shrinking market"]
    scoring_guide := sgSample }

/-- One-category guideline set. -/
def ggA : GeneratedGuidelines := ⟨[catWeight5]⟩

/-- Two-category guideline set. -/
def ggB : GeneratedGuidelines := ⟨[catWeight5, catMarket]⟩

/-- Store holding program 1 of organization 1 with one calibration answer. -/
def dbP1 : DBState :=
  { programs := [{ id := 1, organization_id := 1 }]
    guidelines := []
    calibration := [{ id := 1, program_id := 1
                      question_key := "risk_tolerance_moonshots"
                      answer_value := .objCons "choice_value" (.str "balanced") .objNil
                      answer_text := "Balanced" }]
    nextId := 1 }

/-- JSON document for `catWeight5`, in the shape the schema parses. -/
def gjValid : JValue :=
  .ofFields [("categories", .ofElems [.ofFields
    [("section", .str "team_assessment"),
     ("name", .str "Team Assessment"),
     ("weight", .num 5),
     ("criteria", .ofElems [.str "founder experience"]),
     ("red_flags", .ofElems [.str "solo founder"]),
     ("scoring_guide", .ofFields
       [("1-3", .str "weak"), ("4-5", .str "below average"),
        ("6-7", .str "above average"), ("8-10", .str "strong")])]])]

/-- JSON object with no `categories` field. -/
def gjNoCats : JValue := .ofFields [("foo", .num 1)]

/-- Store with one active guideline row at version 1 for program 1. -/
def dbV1 : DBState :=
  { programs := [{ id := 1, organization_id := 1 }]
    guidelines := [{ id := 1, program_id := 1, sectionKey := "team_assessment"
                     weight := 5
                     criteria := { name := "Team Assessment"
                                   criteria := ["founder experience"]
                                   red_flags := ["solo founder"]
                                   scoring_guide := sgSample }
                     prompt_template := "", is_active := true, version := 1 }]
    calibration := []
    nextId := 2 }

/-- Store with no programs at all. -/
def dbNoProg : DBState :=
  { programs := [], guidelines := [], calibration := [], nextId := 1 }

/-- Store in which program 1 belongs to organization 2. -/
def dbOtherOrg : DBState :=
  { programs := [{ id := 1, organization_id := 2 }]
    guidelines := [], calibration := [], nextId := 1 }

/-- The list `s, s+1, ..., s+n-1` of `n` consecutive numbers. -/
def natSeq (s : Nat) : Nat → List Nat
  | 0 => []
  | n + 1 => s :: natSeq (s + 1) n

/-- Rate-limit scenario: limit 3, window 60 seconds, one key, checks at
times 100, 110, 120 and 130, then at 190 after the window has elapsed. -/
def rlStep1 : RateResult × MemStore :=
  memory_rate_limit [] "org_1_guidelines" 3 60 100

/-- Second check of the rate-limit scenario. -/
def rlStep2 : RateResult × MemStore :=
  memory_rate_limit rlStep1.2 "org_1_guidelines" 3 60 110

/-- Third check of the rate-limit scenario. -/
def rlStep3 : RateResult × MemStore :=
  memory_rate_limit rlStep2.2 "org_1_guidelines" 3 60 120

/-- Fourth check of the rate-limit scenario, inside the window. -/
def rlStep4 : RateResult × MemStore :=
  memory_rate_limit rlStep3.2 "org_1_guidelines" 3 60 130

/-- Fifth check of the rate-limit scenario, after the window elapsed. -/
def rlStep5 : RateResult × MemStore :=
  memory_rate_limit rlStep4.2 "org_1_guidelines" 3 60 190

/-! ## Claim C1 — weight validation -/

/-- C1 counterexample: the one-category set with weight 5 passes the
`GeneratedGuidelines` validation although its weight lies outside `[0, 1]`
and its weight sum is not within 0.01 of 1.0 — so the validator does not
enforce the claimed weight-sum property. -/
theorem c1_counterexample :
    validateGeneratedGuidelines [catWeight5] = true ∧
    ¬ ((0 : ℚ) ≤ (catWeight5.weight : ℚ) ∧ (catWeight5.weight : ℚ) ≤ 1) ∧
    ¬ |(sumWeights [catWeight5] : ℚ) - 1| ≤ 1 / 100 := by
  refine ⟨by decide, ?_, ?_⟩
  · have e : catWeight5.weight = 5 := by decide
    rw [e]; norm_num
  · have e : sumWeights [catWeight5] = 5 := by decide
    rw [e]; norm_num

/-- C1 amended: the `GeneratedGuidelines` validation accepts a category set
exactly when the list is non-empty, the section keys are pairwise distinct,
and every category has an integer weight between 1 and 10, at least one
criterion and at least one red flag; no constraint on the sum of the
weights is checked. -/
theorem c1_validator_accepts_iff (cats : List GuidelineCategory) :
    validateGeneratedGuidelines cats = true ↔
      (cats ≠ [] ∧ (cats.map (·.sectionKey)).Nodup ∧
        ∀ c ∈ cats, (1 ≤ c.weight ∧ c.weight ≤ 10) ∧
          1 ≤ c.criteria.length ∧ 1 ≤ c.red_flags.length) := by
  unfold validateGeneratedGuidelines validCategory
  simp only [Bool.and_eq_true, decide_eq_true_eq, List.all_eq_true]
  constructor
  · rintro ⟨⟨hlen, hall⟩, hnd⟩
    refine ⟨?_, hnd, fun c hc => ?_⟩
    · intro h
      subst h
      simp at hlen
    · have h := hall c hc
      tauto
  · rintro ⟨hne, hnd, hall⟩
    refine ⟨⟨?_, fun c hc => ?_⟩, hnd⟩
    · cases cats with
      | nil => exact absurd rfl hne
      | cons a l => exact Nat.succ_le_succ (Nat.zero_le _)
    · have h := hall c hc
      tauto

/-- C1 witness: the amended characterization applied to the concrete
accepted one-category set. -/
theorem c1_witness : validateGeneratedGuidelines [catWeight5] = true :=
  (c1_validator_accepts_iff [catWeight5]).mpr (by decide)

/-! ## Claim C6 — sliding-window rate limiter -/

/-- Reading a key back after writing it returns the written list. -/
theorem memGet_memSet (s : MemStore) (k : String) (v : List Int) :
    memGet (memSet s k v) k = v := by
  unfold memGet memSet
  rw [List.find?_cons_of_pos]
  exact beq_self_eq_true k

/-- C6: on each check the limiter keeps only the entries strictly inside
the trailing window; when fewer than `limit` remain, the call is allowed and
the current timestamp appended; otherwise the call is denied with
`remaining = 0` and only the purge is recorded.  Concretely, with limit 3
and a 60-second window, three checks inside the window are allowed, the
fourth is denied with remaining 0, and a later check after the window has
elapsed is allowed again. -/
theorem c6_sliding_window :
    (∀ (s : MemStore) (key : String) (limit : Nat) (window now : Int),
      let kept := (memGet s key).filter (fun t => decide (now - window < t))
      (kept.length < limit →
        (memory_rate_limit s key limit window now).1.allowed = true ∧
        memGet (memory_rate_limit s key limit window now).2 key = kept ++ [now]) ∧
      (¬ kept.length < limit →
        (memory_rate_limit s key limit window now).1.allowed = false ∧
        (memory_rate_limit s key limit window now).1.remaining = 0 ∧
        memGet (memory_rate_limit s key limit window now).2 key = kept)) ∧
    (rlStep1.1.allowed = true ∧ rlStep2.1.allowed = true ∧
     rlStep3.1.allowed = true ∧ rlStep4.1.allowed = false ∧
     rlStep4.1.remaining = 0 ∧ rlStep5.1.allowed = true) := by
  constructor
  · intro s key limit window now
    by_cases h :
        ((memGet s key).filter (fun t => decide (now - window < t))).length < limit
    · refine ⟨fun _ => ?_, fun hc => absurd h hc⟩
      unfold memory_rate_limit
      simp only [if_pos h]
      exact ⟨trivial, memGet_memSet _ _ _⟩
    · refine ⟨fun hc => absurd hc h, fun _ => ?_⟩
      unfold memory_rate_limit
      simp only [if_neg h]
      exact ⟨trivial, trivial, memGet_memSet _ _ _⟩
  · decide

/-- C6 witness: a first check on an empty store with limit 3 is allowed and
records the timestamp. -/
theorem c6_witness :
    (memory_rate_limit ([] : MemStore) "k" 3 60 100).1.allowed = true ∧
    memGet (memory_rate_limit ([] : MemStore) "k" 3 60 100).2 "k" = [(100 : Int)] := by
  have h := (c6_sliding_window.1 ([] : MemStore) "k" 3 60 100).1 (by decide)
  exact ⟨h.1, h.2.trans (by decide)⟩

/-! ## Claim C5 — activating a nonexistent version -/

/-- C5: when the program passes the tenant check but holds no row of the
requested version, activation fails with the version-not-found error and
returns the store unchanged, so `get_active_guidelines` — and with it the
previously active version, if any — is exactly what it was before the
call. -/
theorem c5_activate_missing_version (db : DBState) (pid oid v : Nat)
    (hp : (progLookup db pid oid).isSome)
    (hv : db.guidelines.filter (fun r => decide (r.program_id = pid ∧ r.version = v)) = []) :
    activate_guidelines_version db pid oid v =
      (.err ("Version " ++ toString v ++ " not found"), db) ∧
    get_active_guidelines (activate_guidelines_version db pid oid v).2 pid oid =
      get_active_guidelines db pid oid := by
  obtain ⟨p, hp2⟩ := Option.isSome_iff_exists.mp hp
  have heq : activate_guidelines_version db pid oid v =
      (.err ("Version " ++ toString v ++ " not found"), db) := by
    unfold activate_guidelines_version
    rw [hp2]
    simp [hv]
    intro x hx hpid
    have h3 := List.filter_eq_nil_iff.mp hv x hx
    simp [hpid] at h3
    exact h3
  exact ⟨heq, by rw [heq]⟩

/-- C5 witness: activating version 99 of a store holding only version 1
fails, keeps the store intact and leaves the active version unchanged. -/
theorem c5_witness :
    (activate_guidelines_version dbV1 1 1 99 =
      (.err ("Version " ++ toString 99 ++ " not found"), dbV1)) ∧
    get_active_guidelines (activate_guidelines_version dbV1 1 1 99).2 1 1 =
      get_active_guidelines dbV1 1 1 :=
  c5_activate_missing_version dbV1 1 1 99 (by decide) (by decide)

/-! ## Claim C9 — indistinguishable tenant-scoping failures -/

/-- The tenant lookup fails when no program row matches both the id and the
organization. -/
theorem progLookup_eq_none (db : DBState) (pid oid : Nat)
    (h : ∀ p ∈ db.programs, ¬(p.id = pid ∧ p.organization_id = oid)) :
    progLookup db pid oid = none := by
  unfold progLookup
  have hf : db.programs.filter (fun p => decide (p.id = pid ∧ p.organization_id = oid)) = [] :=
    List.filter_eq_nil_iff.mpr (by intro a ha; simpa using h a ha)
  rw [hf]
  rfl

/-- C9: for the generate, save, history and activate operations, the
failure produced when the program id does not exist at all (`db1`) is
identical to the failure produced when the program exists but belongs to a
different organization (`db2`), and neither case changes the store. -/
theorem c9_tenant_indistinguishable (db1 db2 : DBState) (pid oid : Nat)
    (cache : List CacheEntry) (now : Int) (model : Option String) (llm : LLMOutcome)
    (gg : GeneratedGuidelines) (act : Bool) (v : Nat)
    (h1 : ∀ p ∈ db1.programs, p.id ≠ pid)
    (_h2 : ∃ p ∈ db2.programs, p.id = pid)
    (h3 : ∀ p ∈ db2.programs, p.id = pid → p.organization_id ≠ oid) :
    (generate_guidelines_from_calibration db1 cache now pid oid model llm =
       generate_guidelines_from_calibration db2 cache now pid oid model llm) ∧
    ((save_guidelines db1 pid oid gg act).1 = (save_guidelines db2 pid oid gg act).1 ∧
     (save_guidelines db1 pid oid gg act).2 = db1 ∧
     (save_guidelines db2 pid oid gg act).2 = db2) ∧
    (get_guidelines_history db1 pid oid = get_guidelines_history db2 pid oid) ∧
    ((activate_guidelines_version db1 pid oid v).1 =
       (activate_guidelines_version db2 pid oid v).1 ∧
     (activate_guidelines_version db1 pid oid v).2 = db1 ∧
     (activate_guidelines_version db2 pid oid v).2 = db2) := by
  have hn1 : progLookup db1 pid oid = none :=
    progLookup_eq_none db1 pid oid (fun p hp hc => h1 p hp hc.1)
  have hn2 : progLookup db2 pid oid = none :=
    progLookup_eq_none db2 pid oid (fun p hp hc => h3 p hp hc.1 hc.2)
  refine ⟨?_, ⟨?_, ?_, ?_⟩, ?_, ⟨?_, ?_, ?_⟩⟩
  · unfold generate_guidelines_from_calibration
    rw [hn1, hn2]
  · unfold save_guidelines
    rw [hn1, hn2]
  · unfold save_guidelines
    rw [hn1]
  · unfold save_guidelines
    rw [hn2]
  · unfold get_guidelines_history
    rw [hn1, hn2]
  · unfold activate_guidelines_version
    rw [hn1, hn2]
  · unfold activate_guidelines_version
    rw [hn1]
  · unfold activate_guidelines_version
    rw [hn2]

/-- C9 witness: a store without program 1 and a store where program 1
belongs to organization 2 produce identical failures for all four
operations invoked as organization 1. -/
theorem c9_witness :
    (generate_guidelines_from_calibration dbNoProg [] 0 1 1 none
        (.content none .noBraceMatch) =
       generate_guidelines_from_calibration dbOtherOrg [] 0 1 1 none
        (.content none .noBraceMatch)) ∧
    ((save_guidelines dbNoProg 1 1 ggA true).1 = (save_guidelines dbOtherOrg 1 1 ggA true).1 ∧
     (save_guidelines dbNoProg 1 1 ggA true).2 = dbNoProg ∧
     (save_guidelines dbOtherOrg 1 1 ggA true).2 = dbOtherOrg) ∧
    (get_guidelines_history dbNoProg 1 1 = get_guidelines_history dbOtherOrg 1 1) ∧
    ((activate_guidelines_version dbNoProg 1 1 1).1 =
       (activate_guidelines_version dbOtherOrg 1 1 1).1 ∧
     (activate_guidelines_version dbNoProg 1 1 1).2 = dbNoProg ∧
     (activate_guidelines_version dbOtherOrg 1 1 1).2 = dbOtherOrg) :=
  c9_tenant_indistinguishable dbNoProg dbOtherOrg 1 1 [] 0 none
    (.content none .noBraceMatch) ggA true 1 (by decide) (by decide) (by decide)

/-! ## Claim C10 — calibration reads against the question catalog -/

/-- Membership in the first-occurrence list agrees with the original. -/
theorem mem_distinctStr (l : List String) (x : String) :
    x ∈ distinctStr l ↔ x ∈ l := by
  induction l with
  | nil => rfl
  | cons v vs ih =>
    by_cases hx : x = v
    · subst hx
      simp [distinctStr]
    · simp [distinctStr, hx, List.mem_filter, ih]

/-- The first-occurrence list has no duplicates. -/
theorem nodup_distinctStr (l : List String) : (distinctStr l).Nodup := by
  induction l with
  | nil => exact List.nodup_nil
  | cons v vs ih =>
    refine List.nodup_cons.mpr ⟨?_, List.Nodup.filter _ ih⟩
    intro hv
    have := (List.mem_filter.mp hv).2
    simp at this

/-- The catalog keys are pairwise distinct. -/
theorem calibrationQuestionKeys_nodup : calibrationQuestionKeys.Nodup := by decide

/-- C10: the calibration reads consider catalog keys only — an answer is
returned exactly when it is stored for the program under a catalog key; the
completion counts range over catalog keys (total = catalog size, answered =
catalog keys having a stored answer); the percentage is
`answered / total * 100`; and completion holds exactly when every catalog
key has a stored answer for the program. -/
theorem c10_calibration_catalog_scope (db : DBState) (pid : Nat) :
    (∀ a, a ∈ get_program_calibration_answers db pid ↔
       (a ∈ db.calibration ∧ a.program_id = pid ∧
        a.question_key ∈ calibrationQuestionKeys)) ∧
    (get_completion_status db pid).total_questions = calibrationQuestionKeys.length ∧
    (get_completion_status db pid).answered_questions =
      (calibrationQuestionKeys.filter (fun k =>
        decide (∃ a ∈ db.calibration, a.program_id = pid ∧ a.question_key = k))).length ∧
    (get_completion_status db pid).completion_percentage =
      ((get_completion_status db pid).answered_questions : ℚ) /
        ((get_completion_status db pid).total_questions : ℚ) * 100 ∧
    ((get_completion_status db pid).is_complete = true ↔
      ∀ k ∈ calibrationQuestionKeys,
        ∃ a ∈ db.calibration, a.program_id = pid ∧ a.question_key = k) := by
  have hmemStored : ∀ k : String,
      (k ∈ (db.calibration.filter fun a => decide (a.program_id = pid)).map
            (·.question_key)) ↔
        ∃ a ∈ db.calibration, a.program_id = pid ∧ a.question_key = k := by
    intro k
    simp only [List.mem_map, List.mem_filter, decide_eq_true_eq]
    constructor
    · rintro ⟨a, ⟨ha, hpid⟩, hk⟩
      exact ⟨a, ha, hpid, hk⟩
    · rintro ⟨a, ha, hpid, hk⟩
      exact ⟨a, ⟨ha, hpid⟩, hk⟩
  refine ⟨?_, rfl, ?_, rfl, ?_⟩
  · intro a
    unfold get_program_calibration_answers
    simp only [List.mem_filter, decide_eq_true_eq]
    tauto
  · unfold get_completion_status
    apply List.Perm.length_eq
    apply (List.perm_ext_iff_of_nodup (nodup_distinctStr _)
      (List.Nodup.filter _ calibrationQuestionKeys_nodup)).mpr
    intro k
    rw [mem_distinctStr]
    simp only [List.mem_filter, decide_eq_true_eq]
    rw [hmemStored k]
    tauto
  · unfold get_completion_status
    simp only [decide_eq_true_eq]
    constructor
    · intro hnil k hk
      have := List.filter_eq_nil_iff.mp hnil k hk
      simp only [decide_eq_true_eq, not_not] at this
      rw [mem_distinctStr, List.mem_filter, decide_eq_true_eq] at this
      exact (hmemStored k).mp this.1
    · intro hall
      apply List.filter_eq_nil_iff.mpr
      intro k hk
      simp only [decide_eq_true_eq, not_not]
      rw [mem_distinctStr, List.mem_filter, decide_eq_true_eq]
      exact ⟨(hmemStored k).mpr (hall k hk), hk⟩

/-! ## Shared lemmas on the guidelines store -/

/-- Every row of the deactivated list descends from a stored row with the
same program, version and section. -/
theorem mem_deactivateAll_ex {rows : List AIGuidelineRow} {pid : Nat}
    {r : AIGuidelineRow} (hr : r ∈ deactivateAll rows pid) :
    ∃ r₀ ∈ rows, r.program_id = r₀.program_id ∧ r.version = r₀.version ∧
      r.sectionKey = r₀.sectionKey := by
  obtain ⟨r₀, hr₀, heq⟩ := List.mem_map.mp hr
  subst heq
  exact ⟨r₀, hr₀, rfl, rfl, rfl⟩

/-- After the bulk clear, no row of the targeted program is active. -/
theorem mem_deactivateAll_inactive {rows : List AIGuidelineRow} {pid : Nat}
    {r : AIGuidelineRow} (hr : r ∈ deactivateAll rows pid)
    (hpid : r.program_id = pid) : r.is_active = false := by
  obtain ⟨r₀, hr₀, heq⟩ := List.mem_map.mp hr
  subst heq
  have hpid0 : r₀.program_id = pid := hpid
  cases h0 : r₀.is_active with
  | true => simp [hpid0, h0]
  | false => simp [h0]

/-- The bulk clear leaves rows of other programs untouched. -/
theorem mem_deactivateAll_of_ne {rows : List AIGuidelineRow} {pid : Nat}
    {r : AIGuidelineRow} (hr : r ∈ deactivateAll rows pid)
    (hne : ¬ r.program_id = pid) : r ∈ rows := by
  obtain ⟨r₀, hr₀, heq⟩ := List.mem_map.mp hr
  subst heq
  have hne0 : ¬ r₀.program_id = pid := hne
  have hc : ¬ (r₀.program_id = pid ∧ r₀.is_active = true) := fun hh => hne0 hh.1
  have he : ({ r₀ with is_active :=
      if r₀.program_id = pid ∧ r₀.is_active = true then false else r₀.is_active } :
        AIGuidelineRow) = r₀ := by
    rw [if_neg hc]
  rw [he]
  exact hr₀

/-- The bulk clear does not change which versions each program holds. -/
theorem versionsOf_deactivateAll (rows : List AIGuidelineRow) (pid q : Nat) :
    ((deactivateAll rows pid).filter fun r => decide (r.program_id = q)).map (·.version) =
      (rows.filter fun r => decide (r.program_id = q)).map (·.version) := by
  unfold deactivateAll
  rw [List.filter_map, List.map_map]
  rfl

/-- Rows inserted by a save carry the saving program, the allocated version
and the requested active flag. -/
theorem mem_mkRows {pid ver : Nat} {act : Bool} :
    ∀ {startId : Nat} {cats : List GuidelineCategory} {r : AIGuidelineRow},
      r ∈ mkRows pid ver act startId cats →
      r.program_id = pid ∧ r.version = ver ∧ r.is_active = act := by
  intro startId cats
  induction cats generalizing startId with
  | nil => intro r hr; simp [mkRows] at hr
  | cons c cs ih =>
    intro r hr
    simp only [mkRows] at hr
    rcases List.mem_cons.mp hr with hh | hh
    · subst hh; exact ⟨rfl, rfl, rfl⟩
    · exact ih hh

/-- The inserted rows keep the category sections, in order. -/
theorem mkRows_map_sectionKey (pid ver : Nat) (act : Bool) :
    ∀ (startId : Nat) (cats : List GuidelineCategory),
      (mkRows pid ver act startId cats).map (·.sectionKey) = cats.map (·.sectionKey) := by
  intro startId cats
  induction cats generalizing startId with
  | nil => rfl
  | cons c cs ih => simp only [mkRows, List.map_cons, ih]

/-- The inserted rows all carry the allocated version. -/
theorem mkRows_map_version (pid ver : Nat) (act : Bool) :
    ∀ (startId : Nat) (cats : List GuidelineCategory),
      (mkRows pid ver act startId cats).map (·.version) = cats.map (fun _ => ver) := by
  intro startId cats
  induction cats generalizing startId with
  | nil => rfl
  | cons c cs ih => simp only [mkRows, List.map_cons, ih]

/-- Folding `max` distributes over append. -/
theorem foldr_max_append (l₁ l₂ : List Nat) :
    (l₁ ++ l₂).foldr max 0 = max (l₁.foldr max 0) (l₂.foldr max 0) := by
  induction l₁ with
  | nil => simp
  | cons a t ih => simp [ih, Nat.max_assoc]

/-- Every member is bounded by the `max` fold. -/
theorem le_foldr_max : ∀ {l : List Nat} {x : Nat}, x ∈ l → x ≤ l.foldr max 0 := by
  intro l
  induction l with
  | nil => intro x hx; cases hx
  | cons a t ih =>
    intro x hx
    rcases List.mem_cons.mp hx with hh | hh
    · subst hh; exact Nat.le_max_left _ _
    · exact Nat.le_trans (ih hh) (Nat.le_max_right _ _)

/-- The `max` fold of a nonempty constant list is the constant. -/
theorem foldr_max_const {α : Type} (v : Nat) :
    ∀ (l : List α), l ≠ [] → ((l.map fun _ => v).foldr max 0) = v := by
  intro l
  induction l with
  | nil => intro hh; exact absurd rfl hh
  | cons a t ih =>
    intro _
    cases t with
    | nil => simp
    | cons b t₂ =>
      rw [List.map_cons, List.foldr_cons, ih (by simp)]
      exact Nat.max_self v

/-- Normal form of a successful save: the tenant check passed and the
category list is nonempty, so the response carries the allocated version
and the state appends one row per category to the (possibly deactivated)
previous rows. -/
theorem save_guidelines_ok (db : DBState) (pid oid : Nat) (gg : GeneratedGuidelines)
    (act : Bool) (p : ProgramRow) (hp : progLookup db pid oid = some p)
    (hgg : gg.categories ≠ []) :
    save_guidelines db pid oid gg act =
      (.ok { id := db.nextId, program_id := pid, categories := gg.categories
             version := maxVersion db pid + 1, is_active := act },
       { db with
           guidelines :=
             (if act then deactivateAll db.guidelines pid else db.guidelines) ++
               mkRows pid (maxVersion db pid + 1) act db.nextId gg.categories
           nextId := db.nextId + gg.categories.length }) := by
  unfold save_guidelines
  rw [hp]
  cases hc : gg.categories with
  | nil => exact absurd hc hgg
  | cons c cs => simp [mkRows]

/-- A stored row's version never exceeds its program's maximal version. -/
theorem version_le_maxVersion {db : DBState} {pid : Nat} {r : AIGuidelineRow}
    (hr : r ∈ db.guidelines) (hpid : r.program_id = pid) :
    r.version ≤ maxVersion db pid := by
  unfold maxVersion
  apply le_foldr_max
  exact List.mem_map.mpr ⟨r, List.mem_filter.mpr ⟨hr, by simpa using hpid⟩, rfl⟩

/-- A successful save bumps the program's maximal version by exactly one. -/
theorem maxVersion_save (db : DBState) (pid oid : Nat) (gg : GeneratedGuidelines)
    (act : Bool) (p : ProgramRow) (hp : progLookup db pid oid = some p)
    (hgg : gg.categories ≠ []) :
    maxVersion (save_guidelines db pid oid gg act).2 pid = maxVersion db pid + 1 := by
  rw [save_guidelines_ok db pid oid gg act p hp hgg]
  show maxVersion
    { db with
        guidelines :=
          (if act then deactivateAll db.guidelines pid else db.guidelines) ++
            mkRows pid (maxVersion db pid + 1) act db.nextId gg.categories
        nextId := db.nextId + gg.categories.length } pid = maxVersion db pid + 1
  generalize hm : maxVersion db pid = m
  unfold maxVersion
  rw [List.filter_append, List.map_append, foldr_max_append]
  have hbase : (((if act then deactivateAll db.guidelines pid else db.guidelines).filter
      fun r => decide (r.program_id = pid)).map (·.version)) =
      ((db.guidelines.filter fun r => decide (r.program_id = pid)).map (·.version)) := by
    cases act with
    | true => simpa using versionsOf_deactivateAll db.guidelines pid pid
    | false => rfl
  rw [hbase]
  have hnewf : ((mkRows pid (m + 1) act db.nextId gg.categories).filter
      fun r => decide (r.program_id = pid)) =
      mkRows pid (m + 1) act db.nextId gg.categories := by
    apply List.filter_eq_self.mpr
    intro r hr
    simpa using (mem_mkRows hr).1
  rw [hnewf, mkRows_map_version, foldr_max_const _ _ hgg]
  have hfold : ((db.guidelines.filter fun r => decide (r.program_id = pid)).map
      (·.version)).foldr max 0 = m := hm
  rw [hfold]
  exact max_eq_right (Nat.le_succ m)

/-- The bulk clear preserves the single-active-version property. -/
theorem rowsOneVersion_deactivateAll {rows : List AIGuidelineRow} {pid : Nat}
    (h : rowsOneVersion rows) : rowsOneVersion (deactivateAll rows pid) := by
  intro r₁ h₁ r₂ h₂ hprog ha₁ ha₂
  by_cases hq : r₁.program_id = pid
  · rw [mem_deactivateAll_inactive h₁ hq] at ha₁
    exact Bool.noConfusion ha₁
  · have hq₂ : ¬ r₂.program_id = pid := by rw [← hprog]; exact hq
    exact h r₁ (mem_deactivateAll_of_ne h₁ hq) r₂ (mem_deactivateAll_of_ne h₂ hq₂)
      hprog ha₁ ha₂

/-- A save preserves the single-active-version property. -/
theorem rowsOneVersion_save (db : DBState) (pid oid : Nat) (gg : GeneratedGuidelines)
    (act : Bool) (h : rowsOneVersion db.guidelines) :
    rowsOneVersion (save_guidelines db pid oid gg act).2.guidelines := by
  cases hp : progLookup db pid oid with
  | none =>
    have hs : save_guidelines db pid oid gg act =
        (.err "Program not found or access denied", db) := by
      unfold save_guidelines; rw [hp]
    rw [hs]
    exact h
  | some p =>
    cases hcats : gg.categories with
    | nil =>
      have hstate : (save_guidelines db pid oid gg act).2 =
          { db with guidelines :=
              if act then deactivateAll db.guidelines pid else db.guidelines } := by
        unfold save_guidelines
        rw [hp, hcats]
        simp [mkRows]
      rw [hstate]
      cases act with
      | true => exact rowsOneVersion_deactivateAll h
      | false => exact h
    | cons c cs =>
      have hgg : gg.categories ≠ [] := by rw [hcats]; exact List.cons_ne_nil c cs
      rw [save_guidelines_ok db pid oid gg act p hp hgg]
      have hbase : rowsOneVersion
          (if act then deactivateAll db.guidelines pid else db.guidelines) := by
        cases act with
        | true => exact rowsOneVersion_deactivateAll h
        | false => exact h
      intro r₁ h₁ r₂ h₂ hprog ha₁ ha₂
      rcases List.mem_append.mp h₁ with hb₁ | hn₁
      · rcases List.mem_append.mp h₂ with hb₂ | hn₂
        · exact hbase r₁ hb₁ r₂ hb₂ hprog ha₁ ha₂
        · have hr₂ := mem_mkRows hn₂
          cases act with
          | false => rw [hr₂.2.2] at ha₂; exact Bool.noConfusion ha₂
          | true =>
            have hq₁ : r₁.program_id = pid := by rw [hprog, hr₂.1]
            rw [mem_deactivateAll_inactive hb₁ hq₁] at ha₁
            exact Bool.noConfusion ha₁
      · rcases List.mem_append.mp h₂ with hb₂ | hn₂
        · have hr₁ := mem_mkRows hn₁
          cases act with
          | false => rw [hr₁.2.2] at ha₁; exact Bool.noConfusion ha₁
          | true =>
            have hq₂ : r₂.program_id = pid := by rw [← hprog, hr₁.1]
            rw [mem_deactivateAll_inactive hb₂ hq₂] at ha₂
            exact Bool.noConfusion ha₂
        · rw [(mem_mkRows hn₁).2.1, (mem_mkRows hn₂).2.1]

/-- An activation preserves the single-active-version property. -/
theorem rowsOneVersion_activate (db : DBState) (pid oid v : Nat)
    (h : rowsOneVersion db.guidelines) :
    rowsOneVersion (activate_guidelines_version db pid oid v).2.guidelines := by
  unfold activate_guidelines_version
  cases hp : progLookup db pid oid with
  | none => exact h
  | some p =>
    by_cases hex : (db.guidelines.filter fun r =>
        decide (r.program_id = pid ∧ r.version = v)).isEmpty
    · simp only [if_pos hex]
      exact h
    · simp only [if_neg hex]
      intro r₁ h₁ r₂ h₂ hprog ha₁ ha₂
      obtain ⟨s₁, hs₁, he₁⟩ := List.mem_map.mp h₁
      obtain ⟨s₂, hs₂, he₂⟩ := List.mem_map.mp h₂
      subst he₁
      subst he₂
      have hprog0 : s₁.program_id = s₂.program_id := hprog
      have ha₁0 : (if s₁.program_id = pid ∧ s₁.version = v then true else s₁.is_active)
          = true := ha₁
      have ha₂0 : (if s₂.program_id = pid ∧ s₂.version = v then true else s₂.is_active)
          = true := ha₂
      show s₁.version = s₂.version
      by_cases hq : s₁.program_id = pid
      · have hq₂ : s₂.program_id = pid := by rw [← hprog0]; exact hq
        by_cases hc₁ : s₁.program_id = pid ∧ s₁.version = v
        · by_cases hc₂ : s₂.program_id = pid ∧ s₂.version = v
          · rw [hc₁.2, hc₂.2]
          · rw [if_neg hc₂] at ha₂0
            rw [mem_deactivateAll_inactive hs₂ hq₂] at ha₂0
            exact Bool.noConfusion ha₂0
        · rw [if_neg hc₁] at ha₁0
          rw [mem_deactivateAll_inactive hs₁ hq] at ha₁0
          exact Bool.noConfusion ha₁0
      · have hq₂ : ¬ s₂.program_id = pid := by rw [← hprog0]; exact hq
        have hc₁ : ¬ (s₁.program_id = pid ∧ s₁.version = v) := fun hh => hq hh.1
        have hc₂ : ¬ (s₂.program_id = pid ∧ s₂.version = v) := fun hh => hq₂ hh.1
        rw [if_neg hc₁] at ha₁0
        rw [if_neg hc₂] at ha₂0
        exact h s₁ (mem_deactivateAll_of_ne hs₁ hq) s₂ (mem_deactivateAll_of_ne hs₂ hq₂)
          hprog0 ha₁0 ha₂0

/-! ## Claim C2 — single active version invariant -/

/-- C2: starting from any store satisfying the per-program
single-active-version invariant (the empty store included), every sequence
of save and activate operations preserves it: an activating save clears the
program's active flags before inserting the newly active version, and an
activation clears them before setting the target version, so no program
ever holds two simultaneously active versions. -/
theorem c2_single_active_version (db : DBState) (ops : List GLOp)
    (h : activeOneVersion db) : activeOneVersion (runOps db ops) := by
  induction ops generalizing db with
  | nil => exact h
  | cons op rest ih =>
    show activeOneVersion (runOps (applyOp db op) rest)
    apply ih
    cases op with
    | save pid oid gg act => exact rowsOneVersion_save db pid oid gg act h
    | activate pid oid v => exact rowsOneVersion_activate db pid oid v h

/-- C2 witness: from the empty store of program 1, an activating save, a
draft save and an activation leave a single active version. -/
theorem c2_witness :
    activeOneVersion (runOps dbP1
      [.save 1 1 ggA true, .save 1 1 ggB false, .activate 1 1 1]) :=
  c2_single_active_version dbP1
    [.save 1 1 ggA true, .save 1 1 ggB false, .activate 1 1 1] (by decide)

/-! ## Claim C3 — version allocation and monotonicity -/

/-- A save never touches the programs table. -/
theorem save_programs (db : DBState) (pid oid : Nat) (gg : GeneratedGuidelines)
    (act : Bool) : (save_guidelines db pid oid gg act).2.programs = db.programs := by
  unfold save_guidelines
  cases hp : progLookup db pid oid with
  | none => rfl
  | some p => cases hcats : gg.categories <;> simp [mkRows]

/-- The tenant lookup is unchanged by a save. -/
theorem progLookup_save (db : DBState) (pid oid : Nat) (gg : GeneratedGuidelines)
    (act : Bool) (q o : Nat) :
    progLookup (save_guidelines db pid oid gg act).2 q o = progLookup db q o := by
  unfold progLookup
  rw [save_programs]

/-- Response of a successful save. -/
theorem save_guidelines_fst (db : DBState) (pid oid : Nat) (gg : GeneratedGuidelines)
    (act : Bool) (p : ProgramRow) (hp : progLookup db pid oid = some p)
    (hgg : gg.categories ≠ []) :
    (save_guidelines db pid oid gg act).1 =
      .ok { id := db.nextId, program_id := pid, categories := gg.categories
            version := maxVersion db pid + 1, is_active := act } := by
  rw [save_guidelines_ok db pid oid gg act p hp hgg]

/-- After a successful save, the rows of the program carrying the newly
allocated version are exactly the saved categories, in order. -/
theorem save_filter_new (db : DBState) (pid oid : Nat) (gg : GeneratedGuidelines)
    (act : Bool) (p : ProgramRow) (hp : progLookup db pid oid = some p)
    (hgg : gg.categories ≠ []) :
    (((save_guidelines db pid oid gg act).2.guidelines.filter fun r =>
        decide (r.program_id = pid ∧ r.version = maxVersion db pid + 1)).map
      (·.sectionKey)) = gg.categories.map (·.sectionKey) := by
  rw [save_guidelines_ok db pid oid gg act p hp hgg]
  show ((((if act then deactivateAll db.guidelines pid else db.guidelines) ++
      mkRows pid (maxVersion db pid + 1) act db.nextId gg.categories).filter fun r =>
        decide (r.program_id = pid ∧ r.version = maxVersion db pid + 1)).map
      (·.sectionKey)) = gg.categories.map (·.sectionKey)
  generalize hm : maxVersion db pid = m
  rw [List.filter_append, List.map_append]
  have hbase : ((if act then deactivateAll db.guidelines pid else db.guidelines).filter
      fun r => decide (r.program_id = pid ∧ r.version = m + 1)) = [] := by
    apply List.filter_eq_nil_iff.mpr
    intro r hr
    simp only [decide_eq_true_eq]
    rintro ⟨hq, hv⟩
    have hle : r.version ≤ maxVersion db pid := by
      cases act with
      | false => exact version_le_maxVersion hr hq
      | true =>
        obtain ⟨r₀, hr₀, hprogeq, hvereq, _⟩ := mem_deactivateAll_ex hr
        rw [hvereq]
        exact version_le_maxVersion hr₀ (by rw [← hprogeq]; exact hq)
    rw [hm] at hle
    omega
  rw [hbase]
  have hnewf : ((mkRows pid (m + 1) act db.nextId gg.categories).filter fun r =>
      decide (r.program_id = pid ∧ r.version = m + 1)) =
      mkRows pid (m + 1) act db.nextId gg.categories := by
    apply List.filter_eq_self.mpr
    intro r hr
    have hh := mem_mkRows hr
    simp [hh.1, hh.2.1]
  rw [hnewf, mkRows_map_sectionKey]
  rfl

/-- Sequencing lemma: from any store whose tenant check passes, a run of
saves with nonempty category sets allocates consecutive version numbers
starting just above the current maximum. -/
theorem saveVersions_natSeq (reqs : List (GeneratedGuidelines × Bool)) :
    ∀ (db : DBState) (pid oid : Nat), (progLookup db pid oid).isSome →
      (∀ r ∈ reqs, r.1.categories ≠ []) →
      saveVersions db pid oid reqs = natSeq (maxVersion db pid + 1) reqs.length := by
  induction reqs with
  | nil => intro db pid oid _ _; rfl
  | cons req rest ih =>
    intro db pid oid hp hreqs
    obtain ⟨p, hp2⟩ := Option.isSome_iff_exists.mp hp
    obtain ⟨gg, act⟩ := req
    have hgg : gg.categories ≠ [] := hreqs (gg, act) (List.mem_cons_self _ _)
    have hfst := save_guidelines_fst db pid oid gg act p hp2 hgg
    rcases hs : save_guidelines db pid oid gg act with ⟨res, db₂⟩
    rw [hs] at hfst
    have hres : res = SaveResult.ok
        { id := db.nextId, program_id := pid, categories := gg.categories
          version := maxVersion db pid + 1, is_active := act } := hfst
    subst hres
    have hdb₂ : (save_guidelines db pid oid gg act).2 = db₂ := by rw [hs]
    have h1 : (progLookup db₂ pid oid).isSome := by
      rw [← hdb₂, progLookup_save, hp2]
      rfl
    have h2 : maxVersion db₂ pid = maxVersion db pid + 1 := by
      rw [← hdb₂]
      exact maxVersion_save db pid oid gg act p hp2 hgg
    simp only [saveVersions, hs]
    rw [ih db₂ pid oid h1 (fun r hr => hreqs r (List.mem_cons_of_mem _ hr)), h2]
    simp only [natSeq, List.length_cons]

/-- C3: for a program passing the tenant check, every save of a nonempty
category set succeeds with version `max(existing version, 0) + 1` and
persists every category of the set under that single version; running any
sequence of such saves therefore allocates consecutive versions,
increasing by exactly one per save, whatever each save's activation flag. -/
theorem c3_version_allocation (db : DBState) (pid oid : Nat)
    (reqs : List (GeneratedGuidelines × Bool))
    (hp : (progLookup db pid oid).isSome)
    (hreqs : ∀ r ∈ reqs, r.1.categories ≠ []) :
    saveVersions db pid oid reqs = natSeq (maxVersion db pid + 1) reqs.length ∧
    ∀ (gg : GeneratedGuidelines) (act : Bool), gg.categories ≠ [] →
      ∃ sg, (save_guidelines db pid oid gg act).1 = SaveResult.ok sg ∧
        sg.version = maxVersion db pid + 1 ∧
        (((save_guidelines db pid oid gg act).2.guidelines.filter fun r =>
            decide (r.program_id = pid ∧ r.version = maxVersion db pid + 1)).map
          (·.sectionKey)) = gg.categories.map (·.sectionKey) := by
  obtain ⟨p, hp2⟩ := Option.isSome_iff_exists.mp hp
  refine ⟨saveVersions_natSeq reqs db pid oid hp hreqs, fun gg act hgg => ?_⟩
  exact ⟨_, save_guidelines_fst db pid oid gg act p hp2 hgg, rfl,
    save_filter_new db pid oid gg act p hp2 hgg⟩

/-- C3 witness: two saves on the empty store of program 1 allocate
versions 1 and 2. -/
theorem c3_witness :
    saveVersions dbP1 1 1 [(ggA, true), (ggB, false)] = natSeq 1 2 :=
  (c3_version_allocation dbP1 1 1 [(ggA, true), (ggB, false)]
    (by decide) (by decide)).1

/-! ## Claim C8 — draft saves never change the active version -/

/-- Membership in the section-sort insertion step. -/
theorem mem_insertBySection {x r : AIGuidelineRow} :
    ∀ {l : List AIGuidelineRow}, x ∈ insertBySection r l ↔ x = r ∨ x ∈ l := by
  intro l
  induction l with
  | nil => simp [insertBySection]
  | cons a t ih =>
    unfold insertBySection
    by_cases hc : a.sectionKey < r.sectionKey
    · rw [if_pos (decide_eq_true hc)]
      simp only [List.mem_cons, ih]
      tauto
    · rw [if_neg (fun hh => hc (of_decide_eq_true hh))]
      simp only [List.mem_cons]

/-- The section sort is a permutation membership-wise. -/
theorem mem_sortBySection {x : AIGuidelineRow} :
    ∀ {l : List AIGuidelineRow}, x ∈ sortBySection l ↔ x ∈ l := by
  intro l
  induction l with
  | nil => simp [sortBySection]
  | cons a t ih =>
    unfold sortBySection
    rw [mem_insertBySection]
    simp [ih]

/-- Inserting grows the length by one. -/
theorem length_insertBySection (r : AIGuidelineRow) :
    ∀ (l : List AIGuidelineRow), (insertBySection r l).length = l.length + 1 := by
  intro l
  induction l with
  | nil => rfl
  | cons a t ih =>
    unfold insertBySection
    by_cases hc : a.sectionKey < r.sectionKey
    · rw [if_pos (decide_eq_true hc)]
      simp only [List.length_cons, ih]
    · rw [if_neg (fun hh => hc (of_decide_eq_true hh))]
      simp only [List.length_cons]

/-- The section sort preserves length. -/
theorem length_sortBySection :
    ∀ (l : List AIGuidelineRow), (sortBySection l).length = l.length := by
  intro l
  induction l with
  | nil => rfl
  | cons a t ih =>
    unfold sortBySection
    rw [length_insertBySection, ih]
    rfl

/-- A save inserts one row per category. -/
theorem mkRows_length (pid ver : Nat) (act : Bool) :
    ∀ (startId : Nat) (cats : List GuidelineCategory),
      (mkRows pid ver act startId cats).length = cats.length := by
  intro startId cats
  induction cats generalizing startId with
  | nil => rfl
  | cons c cs ih => simp only [mkRows, List.length_cons, ih]

/-- A draft save leaves every program's set of active rows untouched. -/
theorem activeFilter_draftSave (db : DBState) (pid oid : Nat)
    (gg : GeneratedGuidelines) (q : Nat) :
    ((save_guidelines db pid oid gg false).2.guidelines.filter fun r =>
        decide (r.program_id = q ∧ r.is_active = true)) =
      (db.guidelines.filter fun r => decide (r.program_id = q ∧ r.is_active = true)) := by
  cases hp : progLookup db pid oid with
  | none =>
    have hs : save_guidelines db pid oid gg false =
        (.err "Program not found or access denied", db) := by
      unfold save_guidelines; rw [hp]
    rw [hs]
  | some p =>
    cases hcats : gg.categories with
    | nil =>
      have hstate : (save_guidelines db pid oid gg false).2 =
          { db with guidelines := db.guidelines } := by
        unfold save_guidelines
        rw [hp, hcats]
        simp [mkRows]
      rw [hstate]
    | cons c cs =>
      rw [save_guidelines_ok db pid oid gg false p hp
        (by rw [hcats]; exact List.cons_ne_nil c cs)]
      show ((db.guidelines ++
          mkRows pid (maxVersion db pid + 1) false db.nextId gg.categories).filter fun r =>
            decide (r.program_id = q ∧ r.is_active = true)) =
        (db.guidelines.filter fun r => decide (r.program_id = q ∧ r.is_active = true))
      rw [List.filter_append]
      have hnew : ((mkRows pid (maxVersion db pid + 1) false db.nextId
          gg.categories).filter fun r =>
            decide (r.program_id = q ∧ r.is_active = true)) = [] := by
        apply List.filter_eq_nil_iff.mpr
        intro r hr
        have hh := (mem_mkRows hr).2.2
        simp [hh]
      rw [hnew, List.append_nil]

/-- A draft save does not change what `get_active_guidelines` returns, for
any program and organization. -/
theorem getActive_draftSave (db : DBState) (pid oid : Nat)
    (gg : GeneratedGuidelines) (q o : Nat) :
    get_active_guidelines (save_guidelines db pid oid gg false).2 q o =
      get_active_guidelines db q o := by
  unfold get_active_guidelines
  rw [progLookup_save, activeFilter_draftSave]

/-- A run of draft saves does not change what `get_active_guidelines`
returns. -/
theorem getActive_runDraftSaves (drafts : List (Nat × Nat × GeneratedGuidelines)) :
    ∀ (db : DBState) (q o : Nat),
      get_active_guidelines (runDraftSaves db drafts) q o =
        get_active_guidelines db q o := by
  induction drafts with
  | nil => intro db q o; rfl
  | cons d rest ih =>
    intro db q o
    obtain ⟨pid, oid, gg⟩ := d
    show get_active_guidelines
      (runDraftSaves (save_guidelines db pid oid gg false).2 rest) q o = _
    rw [ih, getActive_draftSave]

/-- Right after a successful activating save, the program's active version
is the newly allocated one. -/
theorem getActive_after_activating_save (db : DBState) (pid oid : Nat)
    (gg : GeneratedGuidelines) (p : ProgramRow) (hp : progLookup db pid oid = some p)
    (hgg : gg.categories ≠ []) :
    (get_active_guidelines (save_guidelines db pid oid gg true).2 pid oid).map
      (·.version) = some (maxVersion db pid + 1) := by
  have hpl : progLookup (save_guidelines db pid oid gg true).2 pid oid = some p := by
    rw [progLookup_save]
    exact hp
  have hfil : ((save_guidelines db pid oid gg true).2.guidelines.filter fun r =>
      decide (r.program_id = pid ∧ r.is_active = true)) =
      mkRows pid (maxVersion db pid + 1) true db.nextId gg.categories := by
    rw [save_guidelines_ok db pid oid gg true p hp hgg]
    show ((deactivateAll db.guidelines pid ++
        mkRows pid (maxVersion db pid + 1) true db.nextId gg.categories).filter fun r =>
          decide (r.program_id = pid ∧ r.is_active = true)) = _
    rw [List.filter_append]
    have h₁ : ((deactivateAll db.guidelines pid).filter fun r =>
        decide (r.program_id = pid ∧ r.is_active = true)) = [] := by
      apply List.filter_eq_nil_iff.mpr
      intro r hr
      simp only [decide_eq_true_eq]
      rintro ⟨hq, hact⟩
      rw [mem_deactivateAll_inactive hr hq] at hact
      exact Bool.noConfusion hact
    have h₂ : ((mkRows pid (maxVersion db pid + 1) true db.nextId
        gg.categories).filter fun r =>
          decide (r.program_id = pid ∧ r.is_active = true)) =
        mkRows pid (maxVersion db pid + 1) true db.nextId gg.categories := by
      apply List.filter_eq_self.mpr
      intro r hr
      have hh := mem_mkRows hr
      simp [hh.1, hh.2.2]
    rw [h₁, h₂, List.nil_append]
  unfold get_active_guidelines
  rw [hpl, hfil]
  cases hsort : sortBySection
      (mkRows pid (maxVersion db pid + 1) true db.nextId gg.categories) with
  | nil =>
    exfalso
    have hlen := length_sortBySection
      (mkRows pid (maxVersion db pid + 1) true db.nextId gg.categories)
    rw [hsort, mkRows_length] at hlen
    cases hcats : gg.categories with
    | nil => exact hgg hcats
    | cons c cs => rw [hcats] at hlen; simp at hlen
  | cons first rest =>
    have hmem : first ∈ sortBySection
        (mkRows pid (maxVersion db pid + 1) true db.nextId gg.categories) := by
      rw [hsort]
      exact List.mem_cons_self _ _
    have hver := (mem_mkRows (mem_sortBySection.mp hmem)).2.1
    simp [hver]

/-- C8: an activating save of a nonempty category set installs the newly
allocated version as the active one, and any later run of draft saves
(`activate=false`, any programs, any category sets) leaves that identical
version active: draft saves modify no existing row's active flag. -/
theorem c8_draft_saves_keep_active (db : DBState) (pid oid : Nat)
    (gg : GeneratedGuidelines) (hp : (progLookup db pid oid).isSome)
    (hgg : gg.categories ≠ [])
    (drafts : List (Nat × Nat × GeneratedGuidelines)) :
    (get_active_guidelines
        (runDraftSaves (save_guidelines db pid oid gg true).2 drafts) pid oid).map
      (·.version) = some (maxVersion db pid + 1) := by
  obtain ⟨p, hp2⟩ := Option.isSome_iff_exists.mp hp
  rw [getActive_runDraftSaves drafts _ pid oid]
  exact getActive_after_activating_save db pid oid gg p hp2 hgg

/-- C8 witness: after activating version 1 and then draft-saving another
set, version 1 is still the active version. -/
theorem c8_witness :
    (get_active_guidelines
        (runDraftSaves (save_guidelines dbP1 1 1 ggA true).2 [(1, 1, ggB)]) 1 1).map
      (·.version) = some 1 :=
  c8_draft_saves_keep_active dbP1 1 1 ggA (by decide) (by decide) [(1, 1, ggB)]

/-! ## Claim C7 — the client performs no structural validation -/

/-- C7 counterexample: the client returns a parsed JSON object with no
`categories` list as a success — no structural check happens before the
return. -/
theorem c7_counterexample :
    (generate_ai_guidelines [] 0 [("k", JValue.str "v")] "anthropic/claude-3.5-sonnet"
      (.content (some gjNoCats) .noBraceMatch)).result = .ok gjNoCats ∧
    hasCategoriesList gjNoCats = false := ⟨rfl, rfl⟩

/-- C7 amended: on a cache miss the client returns whatever JSON document
parsing produced — directly or through the brace-substring fallback — with
no check for a `categories` list; content with no brace-delimited substring
fails as `Unexpected error: AI response was not valid JSON`, and a brace
substring that itself fails to parse fails as
`Invalid JSON response from AI: ...`; the missing-`categories` case is
rejected only downstream, by the `GeneratedGuidelines` schema validation in
the service. -/
theorem c7_no_structural_validation (cache : List CacheEntry) (now : Int)
    (answers : List (String × JValue)) (model : String) (j : JValue)
    (fb : FallbackOutcome) (msg : String)
    (hmiss : cacheGet cache (cacheKey answers model) now = none) :
    (generate_ai_guidelines cache now answers model (.content (some j) fb)).result =
      .ok j ∧
    (generate_ai_guidelines cache now answers model
        (.content none (.parsed j))).result = .ok j ∧
    (generate_ai_guidelines cache now answers model
        (.content none (.parseFailed msg))).result =
      .err ("Invalid JSON response from AI: " ++ msg) ∧
    (generate_ai_guidelines cache now answers model
        (.content none .noBraceMatch)).result =
      .err "Unexpected error: AI response was not valid JSON" ∧
    (∀ jv : JValue, hasCategoriesList jv = false →
      jToGuidelines jv = .error "validation error for GeneratedGuidelines") := by
  refine ⟨?_, ?_, ?_, ?_, ?_⟩
  · simp only [generate_ai_guidelines, hmiss]
  · simp only [generate_ai_guidelines, hmiss]
  · simp only [generate_ai_guidelines, hmiss]
  · simp only [generate_ai_guidelines, hmiss]
  · intro jv hjv
    unfold hasCategoriesList at hjv
    cases hf : jFields jv with
    | none => simp [jToGuidelines, hf]
    | some fields =>
      rw [hf] at hjv
      cases hg : jGetField fields "categories" with
      | none => simp [jToGuidelines, hf, hg]
      | some v =>
        cases he : jElems v with
        | none => simp [jToGuidelines, hf, hg, he]
        | some es => simp [hg, he] at hjv

/-- C7 witness: the amended client passthrough applied to a concrete valid
document on an empty cache. -/
theorem c7_witness :
    (generate_ai_guidelines [] 0 [("k", JValue.str "v")] "m"
      (.content (some gjValid) .noBraceMatch)).result = .ok gjValid :=
  (c7_no_structural_validation [] 0 [("k", JValue.str "v")] "m" gjValid
    .noBraceMatch "" rfl).1

/-! ## Claim C4 — cache behaviour and the `cached` flag -/

/-- C10 witness: the catalog scope theorem applied to the sample store
gives the full catalog size as the question total. -/
theorem c10_witness : (get_completion_status dbP1 1).total_questions = 11 :=
  (c10_calibration_catalog_scope dbP1 1).2.1.trans (by decide)

end VDP

